import Mathlib

/-!
Formal model of the pull-request Prettier check action.

The repository ships two variants of the same script; the complete one
(the TypeScript file with `setOutput`, removed-file exclusion, an
ignore-rules input and a quoted remediation command) is the variant
embedded here, definition by definition:

* `getAllChangedFiles` — the paginated file-list loop (page size 100,
  starting at page 1, breaking on the first empty page, dropping entries
  with `removed` status page by page);
* `candidateFiles` — the extension filter (the regex
  `\.(js|jsx|ts|tsx|json|json5|css|less|scss|sass|html|md|mdx|vue)$`)
  followed by the optional ignore-rules filter;
* `runExec` — the try/catch wrapper around `exec` that turns a rejected
  promise into a value instead of letting it propagate;
* `remediationCommand` / `composeFailureBody` — the failure-comment
  composer (split the trimmed diagnostic on newlines, pop the footer
  line, strip the `[warn] ` prefix, `JSON.stringify` each filename);
* `findMarkerComment` / `updateComment` — the sentinel-substring lookup
  and the comment upsert;
* `run` — the whole pipeline, returning the resulting comment list plus
  the observable effects (subprocess invocation, `setOutput`,
  `setFailed`, `console.log`).

External collaborators (the pull-request API, the filesystem, the
`ignore` matcher, the subprocess) are supplied through an explicit
environment `Env`.
-/

namespace PrettierBot

/-- Status of an entry of the pull-request file list, as reported by the
file-listing API. -/
inductive FileStatus where
  | added
  | modified
  | removed
  | renamed
  deriving DecidableEq

/-- One entry of the paginated pull-request file list. -/
structure PRFile where
  filename : String
  status : FileStatus
  deriving DecidableEq

/-- A comment on the pull request, as returned by `listComments`. -/
structure Comment where
  id : Nat
  body : String
  deriving DecidableEq

/-- Outcome of awaiting `exec(cmd)`: the promise either resolves with
stdout and stderr, or rejects with an error carrying the process
stderr. -/
inductive ExecOutcome where
  | ok (stdout stderr : String)
  | err (stderr : String)
  deriving DecidableEq

/-- Modelled from the spec: the ambient run context and the external
collaborators (pull-request API file list and comment list, existence
and contents of the configured ignore file, subprocess behaviour, the id
the API would assign to a newly created comment). -/
structure Env where
  /-- Full file list the API returns, in API order, across all pages. -/
  prFiles : List PRFile
  /-- The pull request's comments, in API order. -/
  comments : List Comment
  /-- Whether `fs.existsSync(prettierIgnore)` holds. -/
  ignoreExists : Bool
  /-- Modelled from the spec: the `ignore` package matcher built from the
  ignore file's contents (`ig.ignores(f)`). -/
  ignores : String → Bool
  /-- Behaviour of the subprocess for a given command line. -/
  exec : String → ExecOutcome
  /-- Id the API assigns to a comment created by this run. -/
  freshId : Nat

/-- The value `runExec` resolves with: `err` models whether the caught
exception was non-null; stdout and stderr as in the source. -/
structure ExecReturn where
  err : Bool
  stdout : String
  stderr : String
  deriving DecidableEq

/-- The try/catch wrapper around `exec`: a resolved promise yields
`err = false` with both streams; a rejected one is caught and yields
`err = true`, empty stdout, and the error's stderr. The rejection is
returned as a value, never re-thrown. -/
def runExec (o : ExecOutcome) : ExecReturn :=
  match o with
  | .ok stdout stderr => { err := false, stdout := stdout, stderr := stderr }
  | .err stderr => { err := true, stdout := "", stderr := stderr }

/-- Does `sub` occur as a contiguous substring of `s` (character lists)?
This is JavaScript's `String.prototype.includes`. -/
def listIncludes (sub : List Char) : List Char → Bool
  | [] => sub.isEmpty
  | c :: rest => sub.isPrefixOf (c :: rest) || listIncludes sub rest

/-- JavaScript's `s.includes(sub)` on strings. -/
def strIncludes (s sub : String) : Bool :=
  listIncludes sub.data s.data

/-- The sentinel marker `<!-- prettier-check-comment -->`. -/
def commentIdentifier : String := "<!-- prettier-check-comment -->"

/-- The predicate of the upsert lookup:
`comment.body.includes(commentIdentifier)`. -/
def isMarker (c : Comment) : Bool :=
  strIncludes c.body commentIdentifier

/-- `comments.find(c => c.body.includes(commentIdentifier))`: the first
comment whose body contains the sentinel, located by substring match. -/
def findMarkerComment (comments : List Comment) : Option Comment :=
  comments.find? isMarker

/-- Modelled from the spec: the comment-update API endpoint replaces the
body of the comment with the given id (full overwrite). -/
def updateComment (comments : List Comment) (cid : Nat) (body : String) :
    List Comment :=
  comments.map (fun c => if c.id = cid then { id := c.id, body := body } else c)

/-- Number of marker comments on the pull request. -/
def markerCount (comments : List Comment) : Nat :=
  comments.countP isMarker

/-- One iteration batch of the pagination loop: the slice the API returns
for (1-based) page `k` at page size 100. -/
def pageAt (files : List PRFile) (k : Nat) : List PRFile :=
  (files.drop ((k - 1) * 100)).take 100

/-- The `while (true)` pagination loop: request page `k`, break when the
page is empty, otherwise drop the `removed` entries, keep the filenames,
and continue with page `k + 1`. The loop in the source is unbounded and
terminates because the file list is finite; `fuel` bounds the recursion
and any sufficiently large value yields the loop's result. -/
def collectPages (files : List PRFile) : Nat → Nat → List String
  | 0, _ => []
  | fuel + 1, k =>
    let page := pageAt files k
    if page.isEmpty then []
    else
      (page.filter (fun f => f.status != FileStatus.removed)).map
        (fun f => f.filename)
      ++ collectPages files fuel (k + 1)

/-- `getAllChangedFiles`: run the pagination loop from page 1. The fuel
`files.length + 1` always suffices (`collectPages_eq_of_le` below shows
the result is fuel-independent from that point on). -/
def getAllChangedFiles (files : List PRFile) : List String :=
  collectPages files (files.length + 1) 1

/-- The allow-listed extensions of the filter regex
`\.(js|jsx|ts|tsx|json|json5|css|less|scss|sass|html|md|mdx|vue)$`. -/
def allowedExts : List String :=
  ["js", "jsx", "ts", "tsx", "json", "json5", "css", "less", "scss",
   "sass", "html", "md", "mdx", "vue"]

/-- The extension-filter regex test: the filename ends in a dot followed
by one of the allow-listed extensions. -/
def extRegexTest (f : String) : Bool :=
  allowedExts.any (fun ext => ("." ++ ext).data.isSuffixOf f.data)

/-- The filtered change set handed to the checker: collected files,
restricted by the extension regex, then by the ignore rules when the
ignore file exists. -/
def candidateFiles (env : Env) : List String :=
  let collected := getAllChangedFiles env.prFiles
  let byExt := collected.filter extRegexTest
  if env.ignoreExists then byExt.filter (fun f => !env.ignores f) else byExt

/-- The check-mode command line:
`npx prettier --check ${changedFiles.join(' ')}` — a bare space join,
no quoting. -/
def checkCommand (changedFiles : List String) : String :=
  "npx prettier --check " ++ String.intercalate " " changedFiles

/-- JavaScript's `s.trim()`: strip leading and trailing whitespace. -/
def jsTrim (s : String) : String :=
  ⟨((s.data.dropWhile Char.isWhitespace).reverse.dropWhile
      Char.isWhitespace).reverse⟩

/-- JavaScript's `s.split('\n')` on character lists: cut at every
newline, keeping empty segments. -/
def splitLinesAux (acc : List Char) : List Char → List (List Char)
  | [] => [acc.reverse]
  | c :: rest =>
    if c = '\n' then acc.reverse :: splitLinesAux [] rest
    else splitLinesAux (c :: acc) rest

/-- JavaScript's `s.split('\n')`. -/
def splitLines (s : String) : List String :=
  (splitLinesAux [] s.data).map String.mk

/-- JavaScript's `s.replace(pat, repl)` with a string pattern: replace
the first occurrence only, on character lists. -/
def replaceFirstAux (pat repl : List Char) : List Char → List Char
  | [] => []
  | c :: rest =>
    if pat.isPrefixOf (c :: rest) then repl ++ (c :: rest).drop pat.length
    else c :: replaceFirstAux pat repl rest

/-- JavaScript's `s.replace(pat, repl)` (first occurrence only). -/
def replaceFirst (s pat repl : String) : String :=
  ⟨replaceFirstAux pat.data repl.data s.data⟩

/-- One hexadecimal digit (lowercase). -/
def hexDigit (n : Nat) : Char :=
  if n < 10 then Char.ofNat ('0'.toNat + n) else Char.ofNat ('a'.toNat + (n - 10))

/-- `JSON.stringify` escaping of one character. -/
def jsonEscapeChar (c : Char) : String :=
  if c = '"' then "\\\""
  else if c = '\\' then "\\\\"
  else if c = '\x08' then "\\b"
  else if c = '\x09' then "\\t"
  else if c = '\x0a' then "\\n"
  else if c = '\x0c' then "\\f"
  else if c = '\x0d' then "\\r"
  else if c.toNat < 32 then
    "\\u00" ++ String.mk [hexDigit (c.toNat / 16), hexDigit (c.toNat % 16)]
  else String.singleton c

/-- `JSON.stringify` escaping of a string body. -/
def jsonEscape (s : String) : String :=
  String.join (s.data.map jsonEscapeChar)

/-- `JSON.stringify(s)` for a string: the escaped body wrapped in double
quotes. -/
def jsonStringify (s : String) : String :=
  "\"" ++ jsonEscape s ++ "\""

/-- The quoted filename list of the remediation command: split the
trimmed diagnostic on newlines, `pop()` the last (footer) line, then for
each remaining line trim it, strip the first `[warn] ` occurrence, and
`JSON.stringify` the result. -/
def remediationArgs (prettierOutput : String) : List String :=
  ((splitLines (jsTrim prettierOutput)).dropLast.map
    (fun line => replaceFirst (jsTrim line) "[warn] " "")).map
    (fun f => jsonStringify f)

/-- The remediation command shown in the failure comment:
`npx prettier --write` against the quoted offending filenames. -/
def remediationCommand (prettierOutput : String) : String :=
  "npx prettier --write " ++ String.intercalate " " (remediationArgs prettierOutput)

/-- The pass-message comment body (both the empty-change-set body and the
tool-passed body in the source are this same string). -/
def passBody : String :=
  commentIdentifier ++ "\nPrettier check passed! 🎉"

/-- The failure comment body: sentinel, diagnostic text in a preformatted
block, then the remediation command in a second preformatted block. -/
def composeFailureBody (prettierOutput : String) : String :=
  commentIdentifier ++
    ("\n🚨 Prettier check failed for the following files:\n\n```\n" ++
      jsTrim prettierOutput ++
      "\n```\n\nTo fix the issue, run the following command:\n\n```\n" ++
      remediationCommand prettierOutput ++ "\n```")

/-- Observable result of one run: the pull request's comments afterwards,
whether and with which command the subprocess was invoked, whether a
comment was created (as opposed to updated), the `setOutput` calls, the
`setFailed` message if any, and the `console.log` lines. -/
structure RunResult where
  comments : List Comment
  execInvoked : Bool
  execCmd : Option String
  created : Bool
  outputs : List (String × Nat)
  failed : Option String
  logs : List String

/-- The pipeline `run`: collect and filter the change set; on an empty
change set, only update an existing marker comment with the pass body
(never create); otherwise invoke the checker, compose the pass or
failure body, upsert the marker comment, and surface the outcome via
`setFailed`/`setOutput`/`console.log`. -/
def run (env : Env) : RunResult :=
  let changedFiles := candidateFiles env
  if changedFiles.length = 0 then
    match findMarkerComment env.comments with
    | some c =>
      { comments := updateComment env.comments c.id passBody,
        execInvoked := false, execCmd := none, created := false,
        outputs := [], failed := none, logs := [] }
    | none =>
      { comments := env.comments,
        execInvoked := false, execCmd := none, created := false,
        outputs := [], failed := none, logs := [] }
  else
    let cmd := checkCommand changedFiles
    let child := runExec (env.exec cmd)
    let prettierOutput := jsTrim child.stderr
    let body := if !child.err then passBody else composeFailureBody prettierOutput
    let comments1 :=
      match findMarkerComment env.comments with
      | some c => updateComment env.comments c.id body
      | none => env.comments ++ [{ id := env.freshId, body := body }]
    let created := (findMarkerComment env.comments).isNone
    if child.err then
      { comments := comments1, execInvoked := true, execCmd := some cmd,
        created := created, outputs := [("exitCode", 1)],
        failed := some "Prettier check failed", logs := [] }
    else
      { comments := comments1, execInvoked := true, execCmd := some cmd,
        created := created, outputs := [("exitCode", 0)],
        failed := none, logs := ["Prettier check passed"] }

/-- Modelled from the spec: POSIX shell word splitting of a command line,
as the shell spawned for the subprocess performs it — fields split on
unquoted spaces, double quotes grouping a field (the escapes and
empty-field cases the commands at hand never produce are omitted). -/
def shellWordsGo (inQ : Bool) (acc : List Char) : List Char → List String
  | [] => if acc.isEmpty then [] else [String.mk acc.reverse]
  | c :: rest =>
    if inQ then
      if c = '"' then shellWordsGo false acc rest
      else shellWordsGo true (c :: acc) rest
    else
      if c = ' ' then
        if acc.isEmpty then shellWordsGo false [] rest
        else String.mk acc.reverse :: shellWordsGo false [] rest
      else if c = '"' then shellWordsGo true acc rest
      else shellWordsGo false (c :: acc) rest

/-- Modelled from the spec: the argument vector a POSIX shell derives
from a command line. -/
def shellWords (s : String) : List String :=
  shellWordsGo false [] s.data

/-- Concrete environment: empty pull request, no comments, tool passes. -/
def c1CEnv : Env :=
  { prFiles := [], comments := [], ignoreExists := false,
    ignores := fun _ => false, exec := fun _ => ExecOutcome.ok "" "",
    freshId := 0 }

/-- Concrete environment: one modified `.ts` file, no comments yet. -/
def c1WEnv : Env :=
  { prFiles := [{ filename := "a.ts", status := FileStatus.modified }],
    comments := [], ignoreExists := false,
    ignores := fun _ => false, exec := fun _ => ExecOutcome.ok "" "",
    freshId := 3 }

/-- Concrete offending filenames for the remediation-command example. -/
def c2Files : List String := ["a.ts", "b c.tsx"]

/-- Concrete footer line of a diagnostic text. -/
def c2Footer : String :=
  "Code style issues found in 2 files. Run Prettier with --write to fix."

/-- Concrete diagnostic text: two per-file warning lines and one footer. -/
def c2Diag : String :=
  "[warn] a.ts\n[warn] b c.tsx\nCode style issues found in 2 files. Run Prettier with --write to fix."

/-- Concrete stderr the failing tool produces. -/
def c3Stderr : String :=
  "[warn] a.ts\nCode style issues found in 1 file. Run Prettier with --write to fix."

/-- Concrete environment: one candidate file, the check exits non-zero. -/
def c3Env : Env :=
  { prFiles := [{ filename := "a.ts", status := FileStatus.modified }],
    comments := [], ignoreExists := false, ignores := fun _ => false,
    exec := fun _ => ExecOutcome.err c3Stderr, freshId := 9 }

/-- Concrete environment: empty change set, one existing marker comment
and one unrelated comment. -/
def c4Env : Env :=
  { prFiles := [],
    comments := [{ id := 1, body := "<!-- prettier-check-comment -->\nold" },
                 { id := 2, body := "hello" }],
    ignoreExists := false, ignores := fun _ => false,
    exec := fun _ => ExecOutcome.ok "" "", freshId := 7 }

/-- Concrete environment: one removed file and one modified file. -/
def c5Env : Env :=
  { prFiles := [{ filename := "gone.ts", status := FileStatus.removed },
                { filename := "keep.ts", status := FileStatus.modified }],
    comments := [], ignoreExists := false, ignores := fun _ => false,
    exec := fun _ => ExecOutcome.ok "" "", freshId := 0 }

/-- Concrete environment: every changed file is filtered out — one by the
extension test, one by the ignore rules. -/
def c6Env : Env :=
  { prFiles := [{ filename := "a.png", status := FileStatus.modified },
                { filename := "b.ts", status := FileStatus.modified }],
    comments := [], ignoreExists := true,
    ignores := fun f => f == "b.ts",
    exec := fun _ => ExecOutcome.ok "" "", freshId := 0 }

/-- Concrete 150-entry file list: the API serves it as a full page of
100 entries, a page of 50, then an empty page. -/
def c7PRFiles : List PRFile :=
  (List.range 150).map (fun i => { filename := Nat.repr i, status := FileStatus.modified })

/-- Concrete environment: one candidate file, the check exits non-zero. -/
def c8Env : Env :=
  { prFiles := [{ filename := "bad.md", status := FileStatus.added }],
    comments := [], ignoreExists := false, ignores := fun _ => false,
    exec := fun _ => ExecOutcome.err "[warn] bad.md\nfooter", freshId := 4 }

/-- Concrete environment: a candidate filename containing a space. -/
def c9Env : Env :=
  { prFiles := [{ filename := "a b.ts", status := FileStatus.modified }],
    comments := [], ignoreExists := false, ignores := fun _ => false,
    exec := fun _ => ExecOutcome.ok "" "", freshId := 2 }

/-- Concrete environment: the only changed file has a non-allow-listed
extension, so the filtered change set is empty. -/
def c10Env : Env :=
  { prFiles := [{ filename := "script.py", status := FileStatus.modified }],
    comments := [], ignoreExists := false, ignores := fun _ => false,
    exec := fun _ => ExecOutcome.ok "" "", freshId := 0 }

theorem data_append (a b : String) : (a ++ b).data = a.data ++ b.data := by
  cases a
  cases b
  rfl

theorem mk_data (s : String) : String.mk s.data = s := by
  cases s
  rfl

theorem isPrefixOf_append_self (p t : List Char) :
    p.isPrefixOf (p ++ t) = true := by
  induction p with
  | nil => simp [List.isPrefixOf]
  | cons c cs ih => simp [List.isPrefixOf, ih]

theorem listIncludes_append_self (p t : List Char) :
    listIncludes p (p ++ t) = true := by
  cases hp : p ++ t with
  | nil => simp_all [listIncludes, List.isEmpty]
  | cons c cs =>
    rw [listIncludes, ← hp, isPrefixOf_append_self]
    simp

theorem strIncludes_append_self (r : String) :
    strIncludes (commentIdentifier ++ r) commentIdentifier = true := by
  rw [strIncludes, data_append]
  exact listIncludes_append_self _ _

theorem isMarker_of_append (i : Nat) (r : String) :
    isMarker { id := i, body := commentIdentifier ++ r } = true :=
  strIncludes_append_self r

theorem isMarker_passBody (i : Nat) :
    isMarker { id := i, body := passBody } = true :=
  isMarker_of_append i _

theorem isMarker_failureBody (i : Nat) (p : String) :
    isMarker { id := i, body := composeFailureBody p } = true :=
  isMarker_of_append i _

theorem replaceFirstAux_self (p t : List Char) (hp : p ≠ []) :
    replaceFirstAux p [] (p ++ t) = t := by
  cases p with
  | nil => exact absurd rfl hp
  | cons c cs =>
    show replaceFirstAux (c :: cs) [] (c :: (cs ++ t)) = t
    rw [replaceFirstAux]
    have hpre : (c :: cs).isPrefixOf (c :: (cs ++ t)) = true :=
      isPrefixOf_append_self (c :: cs) t
    rw [if_pos hpre]
    show ((c :: cs) ++ t).drop (c :: cs).length = t
    exact List.drop_left _ _

theorem replaceFirst_warn (f : String) :
    replaceFirst ("[warn] " ++ f) "[warn] " "" = f := by
  rw [replaceFirst]
  show String.mk (replaceFirstAux "[warn] ".data [] ("[warn] " ++ f).data) = f
  rw [data_append, replaceFirstAux_self _ _ (by decide), mk_data]

theorem pageAt_succ_drop (files : List PRFile) (k : Nat) :
    pageAt files (k + 2) = pageAt (files.drop 100) (k + 1) := by
  unfold pageAt
  rw [List.drop_drop]
  have h : 100 + (k + 1 - 1) * 100 = (k + 2 - 1) * 100 := by omega
  rw [h]

theorem collectPages_shift (fuel : Nat) :
    ∀ (files : List PRFile) (k : Nat),
      collectPages files fuel (k + 2) = collectPages (files.drop 100) fuel (k + 1) := by
  induction fuel with
  | zero => intro files k; rfl
  | succ fuel ih =>
    intro files k
    rw [collectPages, collectPages, pageAt_succ_drop, ih]

theorem collectPages_eq_of_le (fuel : Nat) :
    ∀ files : List PRFile, files.length ≤ 100 * fuel →
      collectPages files fuel 1 =
        (files.filter (fun f => f.status != FileStatus.removed)).map
          (fun f => f.filename) := by
  induction fuel with
  | zero =>
    intro files h
    have : files = [] := List.eq_nil_of_length_eq_zero (by omega)
    subst this
    rfl
  | succ fuel ih =>
    intro files h
    rw [collectPages]
    have hpage : pageAt files 1 = files.take 100 := by
      simp [pageAt]
    cases files with
    | nil => simp [hpage]
    | cons f fs =>
      have hne : (pageAt (f :: fs) 1).isEmpty = false := by
        rw [hpage]
        simp [List.isEmpty, List.take]
      rw [hne]
      simp only [Bool.false_eq_true, if_false, hpage]
      have hshift : collectPages (f :: fs) fuel 2 =
          collectPages ((f :: fs).drop 100) fuel 1 :=
        collectPages_shift fuel (f :: fs) 0
      rw [hshift, ih ((f :: fs).drop 100)
        (by simp only [List.length_drop, List.length_cons] at h ⊢; omega)]
      rw [← List.map_append, ← List.filter_append, List.take_append_drop]

theorem getAllChangedFiles_eq (files : List PRFile) :
    getAllChangedFiles files =
      (files.filter (fun f => f.status != FileStatus.removed)).map
        (fun f => f.filename) :=
  collectPages_eq_of_le (files.length + 1) files (by omega)

theorem run_empty_none (env : Env) (h : candidateFiles env = [])
    (hf : findMarkerComment env.comments = none) :
    run env = {
      comments := env.comments,
      execInvoked := false,
      execCmd := none,
      created := false,
      outputs := [],
      failed := none,
      logs := [] } := by
  unfold run
  rw [h]
  simp [hf]

theorem run_empty_some (env : Env) (c : Comment) (h : candidateFiles env = [])
    (hf : findMarkerComment env.comments = some c) :
    run env = {
      comments := updateComment env.comments c.id passBody,
      execInvoked := false,
      execCmd := none,
      created := false,
      outputs := [],
      failed := none,
      logs := [] } := by
  unfold run
  rw [h]
  simp [hf]

theorem run_nonempty_err (env : Env) (e : String)
    (hne : candidateFiles env ≠ [])
    (hx : env.exec (checkCommand (candidateFiles env)) = ExecOutcome.err e) :
    run env = {
      comments :=
        (match findMarkerComment env.comments with
         | some c => updateComment env.comments c.id (composeFailureBody (jsTrim e))
         | none => env.comments ++
             [{ id := env.freshId, body := composeFailureBody (jsTrim e) }]),
      execInvoked := true,
      execCmd := some (checkCommand (candidateFiles env)),
      created := (findMarkerComment env.comments).isNone,
      outputs := [("exitCode", 1)],
      failed := some "Prettier check failed",
      logs := [] } := by
  unfold run
  have hlen : ¬ (candidateFiles env).length = 0 := by
    simpa [List.length_eq_zero] using hne
  rw [if_neg hlen]
  simp [hx, runExec]

theorem run_nonempty_ok (env : Env) (o s : String)
    (hne : candidateFiles env ≠ [])
    (hx : env.exec (checkCommand (candidateFiles env)) = ExecOutcome.ok o s) :
    run env = {
      comments :=
        (match findMarkerComment env.comments with
         | some c => updateComment env.comments c.id passBody
         | none => env.comments ++ [{ id := env.freshId, body := passBody }]),
      execInvoked := true,
      execCmd := some (checkCommand (candidateFiles env)),
      created := (findMarkerComment env.comments).isNone,
      outputs := [("exitCode", 0)],
      failed := none,
      logs := ["Prettier check passed"] } := by
  unfold run
  have hlen : ¬ (candidateFiles env).length = 0 := by
    simpa [List.length_eq_zero] using hne
  rw [if_neg hlen]
  simp [hx, runExec]

theorem findMarker_none_iff (l : List Comment) :
    findMarkerComment l = none ↔ markerCount l = 0 := by
  simp [findMarkerComment, markerCount, List.find?_eq_none, List.countP_eq_zero]

theorem updateComment_map_id (l : List Comment) (cid : Nat) (b : String) :
    (updateComment l cid b).map (fun c => c.id) = l.map (fun c => c.id) := by
  unfold updateComment
  rw [List.map_map]
  apply List.map_congr_left
  intro x hx
  by_cases h : x.id = cid <;> simp [h]

theorem markerCount_updateComment (l : List Comment) (c : Comment) (b : String)
    (hids : (l.map (fun x => x.id)).Nodup)
    (hc : findMarkerComment l = some c)
    (hb : isMarker { id := c.id, body := b } = true) :
    markerCount (updateComment l c.id b) = markerCount l := by
  have hmem : c ∈ l := List.mem_of_find?_eq_some hc
  have hmark : isMarker c = true := List.find?_some hc
  unfold markerCount updateComment
  rw [List.countP_map]
  apply List.countP_congr
  intro x hx
  by_cases h : x.id = c.id
  · have hxc : x = c := List.inj_on_of_nodup_map hids hx hmem h
    subst hxc
    simp [h, hb, hmark, Function.comp]
  · simp [Function.comp, h]

theorem markerCount_append_marker (l : List Comment) (x : Comment)
    (hx : isMarker x = true) :
    markerCount (l ++ [x]) = markerCount l + 1 := by
  simp [markerCount, List.countP_append, List.countP_cons, hx]

theorem markerCount_run (env : Env)
    (hids : (env.comments.map (fun c => c.id)).Nodup) :
    markerCount (run env).comments =
      if findMarkerComment env.comments = none then
        (if candidateFiles env = [] then 0 else 1)
      else markerCount env.comments := by
  by_cases hemp : candidateFiles env = []
  · cases hf : findMarkerComment env.comments with
    | none =>
      rw [run_empty_none env hemp hf]
      simp [hf, hemp, (findMarker_none_iff _).mp hf]
    | some c =>
      rw [run_empty_some env c hemp hf]
      simp [hf,
        markerCount_updateComment env.comments c passBody hids hf (isMarker_passBody c.id)]
  · cases hx : env.exec (checkCommand (candidateFiles env)) with
    | ok o s =>
      rw [run_nonempty_ok env o s hemp hx]
      cases hf : findMarkerComment env.comments with
      | none =>
        simp [hf, hemp, markerCount_append_marker _ _ (isMarker_passBody env.freshId),
          (findMarker_none_iff _).mp hf]
      | some c =>
        simp [hf,
          markerCount_updateComment env.comments c passBody hids hf (isMarker_passBody c.id)]
    | err e =>
      rw [run_nonempty_err env e hemp hx]
      cases hf : findMarkerComment env.comments with
      | none =>
        simp [hf, hemp,
          markerCount_append_marker _ _ (isMarker_failureBody env.freshId (jsTrim e)),
          (findMarker_none_iff _).mp hf]
      | some c =>
        simp [hf,
          markerCount_updateComment env.comments c (composeFailureBody (jsTrim e)) hids hf
            (isMarker_failureBody c.id (jsTrim e))]

theorem run_map_id_nodup (env : Env)
    (hids : (env.comments.map (fun c => c.id)).Nodup)
    (hfresh : env.freshId ∉ env.comments.map (fun c => c.id)) :
    ((run env).comments.map (fun c => c.id)).Nodup := by
  by_cases hemp : candidateFiles env = []
  · cases hf : findMarkerComment env.comments with
    | none => rw [run_empty_none env hemp hf]; exact hids
    | some c =>
      rw [run_empty_some env c hemp hf]
      simpa [updateComment_map_id] using hids
  · cases hx : env.exec (checkCommand (candidateFiles env)) with
    | ok o s =>
      rw [run_nonempty_ok env o s hemp hx]
      cases hf : findMarkerComment env.comments with
      | none =>
        simp only [hf, List.map_append, List.map_cons, List.map_nil]
        rw [List.nodup_append]
        refine ⟨hids, List.nodup_singleton _, ?_⟩
        intro a ha hb
        simp at hb
        subst hb
        exact hfresh ha
      | some c =>
        simp only [hf, updateComment_map_id]
        exact hids
    | err e =>
      rw [run_nonempty_err env e hemp hx]
      cases hf : findMarkerComment env.comments with
      | none =>
        simp only [hf, List.map_append, List.map_cons, List.map_nil]
        rw [List.nodup_append]
        refine ⟨hids, List.nodup_singleton _, ?_⟩
        intro a ha hb
        simp at hb
        subst hb
        exact hfresh ha
      | some c =>
        simp only [hf, updateComment_map_id]
        exact hids

/-- C1 (amended): when the pull request's comment ids are distinct and at
most one marker comment exists before a run, at most one exists after it
(the lookup is the sentinel substring match `findMarkerComment`, never a
stored id); and running the pipeline twice in succession against an
unchanged PR state leaves exactly one marker comment whenever the
filtered change set is non-empty. (As originally stated the two-run
count is not always one: with an empty change set and no pre-existing
marker comment both runs leave zero — see the counterexample.) -/
theorem c1_marker_uniqueness (env : Env)
    (hids : (env.comments.map (fun c => c.id)).Nodup)
    (hfresh : env.freshId ∉ env.comments.map (fun c => c.id))
    (hpre : markerCount env.comments ≤ 1) :
    markerCount (run env).comments ≤ 1 ∧
      (candidateFiles env ≠ [] →
        markerCount (run { env with comments := (run env).comments }).comments = 1) := by
  have h1 := markerCount_run env hids
  constructor
  · rw [h1]
    split_ifs <;> omega
  · intro hne
    have hclaim : markerCount (run env).comments = 1 := by
      rw [h1]
      cases hf : findMarkerComment env.comments with
      | none => simp [hne]
      | some c =>
        have hpos : 0 < markerCount env.comments := by
          rw [markerCount, List.countP_pos_iff]
          exact ⟨c, List.mem_of_find?_eq_some hf, List.find?_some hf⟩
        simp
        omega
    have hids2 : (((run env).comments).map (fun c => c.id)).Nodup :=
      run_map_id_nodup env hids hfresh
    set env2 : Env := { env with comments := (run env).comments } with henv2
    have h2 := markerCount_run env2 hids2
    rw [h2]
    have hcnt2 : markerCount env2.comments = 1 := hclaim
    have hfind2 : ¬ findMarkerComment env2.comments = none := by
      intro hnone
      rw [findMarker_none_iff] at hnone
      omega
    rw [if_neg hfind2]
    exact hcnt2

/-- C1 counterexample: on a pull request with an empty change set and no
pre-existing comments, running the pipeline twice in succession leaves
zero marker comments, so "running the pipeline twice in succession
against an unchanged PR state leaves exactly one marker comment" is
false as stated. -/
theorem c1_counterexample :
    markerCount (run { c1CEnv with comments := (run c1CEnv).comments }).comments ≠ 1 := by
  decide

/-- C1 witness: the amended claim evaluated on a concrete pull request
with one modified `.ts` file and no comments. -/
theorem c1_marker_uniqueness_witness :
    ((c1WEnv.comments.map (fun c => c.id)).Nodup ∧
      c1WEnv.freshId ∉ c1WEnv.comments.map (fun c => c.id) ∧
      markerCount c1WEnv.comments ≤ 1 ∧ candidateFiles c1WEnv ≠ []) ∧
    markerCount (run { c1WEnv with comments := (run c1WEnv).comments }).comments = 1 :=
  ⟨⟨by decide, by decide, by decide, by decide⟩,
    (c1_marker_uniqueness c1WEnv (by decide) (by decide) (by decide)).2 (by decide)⟩

/-- C2: for a diagnostic text of N per-file warning lines followed by one
non-per-file footer line, the derived remediation command is the write
invocation against exactly N filenames, each one `JSON.stringify`-quoted
(wrapped in double quotes). -/
theorem c2_remediation_quoted (files : List String) (footer diag : String)
    (hsplit : splitLines (jsTrim diag) =
      files.map (fun f => "[warn] " ++ f) ++ [footer])
    (htrim : ∀ f ∈ files, jsTrim ("[warn] " ++ f) = "[warn] " ++ f) :
    remediationCommand diag =
      "npx prettier --write " ++
        String.intercalate " " (files.map jsonStringify) ∧
    (files.map jsonStringify).length = files.length ∧
    (∀ a ∈ files.map jsonStringify, ∃ mid, a = "\"" ++ mid ++ "\"") := by
  have hargs : remediationArgs diag = files.map jsonStringify := by
    unfold remediationArgs
    rw [hsplit, List.dropLast_concat, List.map_map, List.map_map]
    apply List.map_congr_left
    intro f hf
    simp only [Function.comp]
    rw [htrim f hf, replaceFirst_warn]
  refine ⟨?_, by simp, ?_⟩
  · unfold remediationCommand
    rw [hargs]
  · intro a ha
    rw [List.mem_map] at ha
    obtain ⟨f, _, rfl⟩ := ha
    exact ⟨jsonEscape f, rfl⟩

/-- C2 witness: the remediation command for a concrete diagnostic with
two warning lines (one filename containing a space) and a footer. -/
theorem c2_remediation_quoted_witness :
    (splitLines (jsTrim c2Diag) =
        c2Files.map (fun f => "[warn] " ++ f) ++ [c2Footer] ∧
      ∀ f ∈ c2Files, jsTrim ("[warn] " ++ f) = "[warn] " ++ f) ∧
    remediationCommand c2Diag =
      "npx prettier --write " ++ String.intercalate " " (c2Files.map jsonStringify) :=
  ⟨⟨by decide, by decide⟩,
    (c2_remediation_quoted c2Files c2Footer c2Diag (by decide) (by decide)).1⟩

/-- C3: a non-zero exit of the check invocation is not fatal: `runExec`
catches the rejection and returns it as a value (`err = true`, the
error's stderr captured), and the run still invokes the checker, marks
the run failed, and upserts a comment carrying the failure body — it
does not abort before a comment is posted. -/
theorem c3_nonzero_exit_not_fatal (env : Env) (e : String)
    (hne : candidateFiles env ≠ [])
    (hx : env.exec (checkCommand (candidateFiles env)) = ExecOutcome.err e) :
    runExec (ExecOutcome.err e) = { err := true, stdout := "", stderr := e } ∧
    (run env).execInvoked = true ∧
    (run env).failed = some "Prettier check failed" ∧
    ∃ c ∈ (run env).comments, c.body = composeFailureBody (jsTrim e) := by
  rw [run_nonempty_err env e hne hx]
  refine ⟨rfl, rfl, rfl, ?_⟩
  cases hf : findMarkerComment env.comments with
  | none =>
    refine ⟨{ id := env.freshId, body := composeFailureBody (jsTrim e) }, ?_, rfl⟩
    simp [hf]
  | some c =>
    have hmem : c ∈ env.comments := List.mem_of_find?_eq_some hf
    refine ⟨{ id := c.id, body := composeFailureBody (jsTrim e) }, ?_, rfl⟩
    simp only [hf, updateComment]
    rw [List.mem_map]
    exact ⟨c, hmem, by simp⟩

/-- C3 witness: a concrete run whose check invocation exits non-zero is
still marked failed (and, per the theorem, upserts the failure
comment). -/
theorem c3_nonzero_exit_not_fatal_witness :
    (candidateFiles c3Env ≠ [] ∧
      c3Env.exec (checkCommand (candidateFiles c3Env)) = ExecOutcome.err c3Stderr) ∧
    (run c3Env).failed = some "Prettier check failed" :=
  ⟨⟨by decide, by decide⟩,
    (c3_nonzero_exit_not_fatal c3Env c3Stderr (by decide) (by decide)).2.2.1⟩

/-- C4: with an empty filtered change set the upsert only attempts an
update: no comment is ever created; when no marker comment exists the
comment set is left unchanged, and when one exists its body is fully
overwritten with the pass message. -/
theorem c4_empty_update_only (env : Env) (h : candidateFiles env = []) :
    (run env).created = false ∧
    (findMarkerComment env.comments = none → (run env).comments = env.comments) ∧
    (∀ c, findMarkerComment env.comments = some c →
      (run env).comments = updateComment env.comments c.id passBody) := by
  refine ⟨?_, ?_, ?_⟩
  · cases hf : findMarkerComment env.comments with
    | none => rw [run_empty_none env h hf]
    | some c => rw [run_empty_some env c h hf]
  · intro hf
    rw [run_empty_none env h hf]
  · intro c hf
    rw [run_empty_some env c h hf]

/-- C4 witness: a concrete empty-change-set run overwrites the existing
marker comment's body with the pass message. -/
theorem c4_empty_update_only_witness :
    candidateFiles c4Env = [] ∧
    (run c4Env).comments = updateComment c4Env.comments 1 passBody :=
  ⟨by decide,
    (c4_empty_update_only c4Env (by decide)).2.2
      { id := 1, body := "<!-- prettier-check-comment -->\nold" } (by decide)⟩

/-- C5: a filename all of whose entries have `removed` status is excluded
already from the collected change set — before the extension and ignore
filters — and therefore never appears among the candidate filenames
passed to the checker. -/
theorem c5_removed_excluded (env : Env) (f : String)
    (h : ∀ e ∈ env.prFiles, e.filename = f → e.status = FileStatus.removed) :
    f ∉ getAllChangedFiles env.prFiles ∧ f ∉ candidateFiles env := by
  have hmain : f ∉ getAllChangedFiles env.prFiles := by
    rw [getAllChangedFiles_eq]
    intro hmem
    rw [List.mem_map] at hmem
    obtain ⟨e, he, hname⟩ := hmem
    rw [List.mem_filter] at he
    have hrem := h e he.1 hname
    rw [hrem] at he
    simp at he
  refine ⟨hmain, fun hmem => hmain ?_⟩
  simp only [candidateFiles] at hmem
  by_cases hig : env.ignoreExists = true
  · rw [if_pos hig] at hmem
    exact (List.mem_filter.mp (List.mem_filter.mp hmem).1).1
  · rw [if_neg hig] at hmem
    exact (List.mem_filter.mp hmem).1

/-- C5 witness: a concrete removed file is absent from the candidate
list. -/
theorem c5_removed_excluded_witness :
    (∀ e ∈ c5Env.prFiles, e.filename = "gone.ts" → e.status = FileStatus.removed) ∧
    "gone.ts" ∉ candidateFiles c5Env :=
  ⟨by decide, (c5_removed_excluded c5Env "gone.ts" (by decide)).2⟩

/-- C6: when every collected file is filtered out (wrong extension or
matched by the ignore rules), the change set is empty, the checker
subprocess is not invoked, and the run is not marked failed — the
outcome is a pass. -/
theorem c6_all_filtered_pass (env : Env)
    (h : ∀ f ∈ getAllChangedFiles env.prFiles,
      extRegexTest f = false ∨ (env.ignoreExists = true ∧ env.ignores f = true)) :
    candidateFiles env = [] ∧ (run env).execInvoked = false ∧
    (run env).execCmd = none ∧ (run env).failed = none := by
  have hempty : candidateFiles env = [] := by
    simp only [candidateFiles]
    by_cases hig : env.ignoreExists = true
    · rw [if_pos hig]
      apply List.filter_eq_nil_iff.mpr
      intro a ha
      have ha1 := List.mem_filter.mp ha
      rcases h a ha1.1 with hext | ⟨_, hign⟩
      · rw [ha1.2] at hext
        exact absurd hext (by simp)
      · simp [hign]
    · rw [if_neg hig]
      apply List.filter_eq_nil_iff.mpr
      intro a ha
      rcases h a ha with hext | ⟨hig2, _⟩
      · simp [hext]
      · exact absurd hig2 hig
  refine ⟨hempty, ?_, ?_, ?_⟩ <;>
    cases hf : findMarkerComment env.comments with
  | none => rw [run_empty_none env hempty hf]
  | some c => rw [run_empty_some env c hempty hf]

/-- C6 witness: a concrete change set where one file fails the extension
test and the other is ignore-matched does not invoke the checker. -/
theorem c6_all_filtered_pass_witness :
    (∀ f ∈ getAllChangedFiles c6Env.prFiles,
      extRegexTest f = false ∨ (c6Env.ignoreExists = true ∧ c6Env.ignores f = true)) ∧
    (run c6Env).execInvoked = false :=
  ⟨by decide, (c6_all_filtered_pass c6Env (by decide)).2.1⟩

/-- C7: the pagination loop (page size 100 from page 1, stopping exactly
at the first empty page) collects the full file list in API return
order, with only the removed entries excluded, before any filtering; in
particular a 150-entry list spanning two non-empty pages is fully
collected. -/
theorem c7_pagination_collects_all :
    (∀ env : Env,
      getAllChangedFiles env.prFiles =
        (env.prFiles.filter (fun f => f.status != FileStatus.removed)).map
          (fun f => f.filename)) ∧
    getAllChangedFiles c7PRFiles = (List.range 150).map Nat.repr := by
  refine ⟨fun env => getAllChangedFiles_eq env.prFiles, ?_⟩
  rw [getAllChangedFiles_eq]
  unfold c7PRFiles
  rw [List.filter_eq_self.mpr]
  · rw [List.map_map]
    rfl
  · intro a ha
    rw [List.mem_map] at ha
    obtain ⟨i, _, rfl⟩ := ha
    rfl

/-- C8: with a non-empty change set, a failing tool leads to the run
being marked failed and the `exitCode` output set to 1; a passing tool
leads to the success log line and the `exitCode` output set to 0. -/
theorem c8_outcome_flag (env : Env) (hne : candidateFiles env ≠ []) :
    (∀ e, env.exec (checkCommand (candidateFiles env)) = ExecOutcome.err e →
      (run env).failed = some "Prettier check failed" ∧
      (run env).outputs = [("exitCode", 1)] ∧ (run env).logs = []) ∧
    (∀ o s, env.exec (checkCommand (candidateFiles env)) = ExecOutcome.ok o s →
      (run env).failed = none ∧ (run env).outputs = [("exitCode", 0)] ∧
      (run env).logs = ["Prettier check passed"]) := by
  constructor
  · intro e hx
    rw [run_nonempty_err env e hne hx]
    exact ⟨rfl, rfl, rfl⟩
  · intro o s hx
    rw [run_nonempty_ok env o s hne hx]
    exact ⟨rfl, rfl, rfl⟩

/-- C8 witness: a concrete failing run surfaces `exitCode = 1`. -/
theorem c8_outcome_flag_witness :
    (candidateFiles c8Env ≠ [] ∧
      c8Env.exec (checkCommand (candidateFiles c8Env)) =
        ExecOutcome.err "[warn] bad.md\nfooter") ∧
    (run c8Env).outputs = [("exitCode", 1)] :=
  ⟨⟨by decide, by decide⟩,
    ((c8_outcome_flag c8Env (by decide)).1 "[warn] bad.md\nfooter" (by decide)).2.1⟩

/-- C9: the check-mode command is the space join of the filenames with no
quoting, so a filename containing a space reaches the shell as two
separate arguments — unlike the remediation command, whose
`JSON.stringify` quoting keeps it one argument. -/
theorem c9_check_unquoted :
    (∀ env : Env, candidateFiles env ≠ [] →
      (run env).execCmd = some (checkCommand (candidateFiles env))) ∧
    (∀ fs : List String,
      checkCommand fs = "npx prettier --check " ++ String.intercalate " " fs) ∧
    shellWords (checkCommand ["a b.ts"]) =
      ["npx", "prettier", "--check", "a", "b.ts"] ∧
    shellWords (remediationCommand "[warn] a b.ts\nfooter") =
      ["npx", "prettier", "--write", "a b.ts"] := by
  refine ⟨?_, fun fs => rfl, by decide, by decide⟩
  intro env hne
  cases hx : env.exec (checkCommand (candidateFiles env)) with
  | ok o s => rw [run_nonempty_ok env o s hne hx]
  | err e => rw [run_nonempty_err env e hne hx]

/-- C9 witness: a concrete run over a filename containing a space invokes
exactly the unquoted check command. -/
theorem c9_check_unquoted_witness :
    candidateFiles c9Env ≠ [] ∧
    (run c9Env).execCmd = some (checkCommand (candidateFiles c9Env)) :=
  ⟨by decide, c9_check_unquoted.1 c9Env (by decide)⟩

/-- C10: with an empty filtered change set the run sets no output, no
failure signal, and logs no success line — the process-level outcome
interface is left untouched. -/
theorem c10_empty_no_outputs (env : Env) (h : candidateFiles env = []) :
    (run env).outputs = [] ∧ (run env).failed = none ∧ (run env).logs = [] := by
  cases hf : findMarkerComment env.comments with
  | none =>
    rw [run_empty_none env h hf]
    exact ⟨rfl, rfl, rfl⟩
  | some c =>
    rw [run_empty_some env c h hf]
    exact ⟨rfl, rfl, rfl⟩

/-- C10 witness: a concrete run whose only changed file is filtered out
performs no `setOutput` call. -/
theorem c10_empty_no_outputs_witness :
    candidateFiles c10Env = [] ∧ (run c10Env).outputs = [] :=
  ⟨by decide, (c10_empty_no_outputs c10Env (by decide)).1⟩

end PrettierBot
